import Mathlib

set_option autoImplicit false

/-!
Verification of the chest X-ray CAM explainability engine of
`backend/services/chest_xray_service.py`: the GradCAM / GradCAM++ /
ScoreCAM saliency computations, multi-label thresholding, target-class
selection for explanation, heatmap rendering and compositing, the
content-hash prediction cache, and hook registration on the shared model.

Conventions of the shallow embedding:
* PyTorch float tensors are modelled exactly over `ℚ`; a spatial map is a
  row-major `List (List ℚ)` and a multi-channel tensor a list of such maps
  (the batch dimension, always 1 in the service, is dropped).
* Transcendental library primitives (`exp` inside `torch.sigmoid` and
  `F.softmax`) are abstracted as an explicit function parameter `fexp`;
  every property proved here holds for an arbitrary such function.
* The frozen DenseNet-121 classifier, PIL decoding and the torchvision
  transform are external collaborators; they enter as function-valued
  fields of an environment record, never as stubs of repository code.
-/

namespace ChestXray

/-- A single-channel spatial map (one channel of a tensor), row-major. -/
abbrev Image := List (List ℚ)

/-- `F.relu` on a scalar. -/
def relu (x : ℚ) : ℚ := max x 0

/-- Pointwise map over a spatial map. -/
def imap (f : ℚ → ℚ) (img : Image) : Image := img.map (fun r => r.map f)

/-- Pointwise combination of two spatial maps (PyTorch elementwise ops on
equal-shaped tensors). -/
def imap2 (f : ℚ → ℚ → ℚ) (a b : Image) : Image :=
  List.zipWith (List.zipWith f) a b

/-- All values of a spatial map, row-major (a tensor `.view(-1)`). -/
def vals (img : Image) : List ℚ := img.flatten

/-- `torch.sum` over the spatial dimensions of one channel. -/
def isum (img : Image) : ℚ := (vals img).sum

/-- Number of spatial positions of one channel. -/
def icount (img : Image) : Nat := (vals img).length

/-- `torch.mean` over the spatial dimensions of one channel. -/
def imean (img : Image) : ℚ := isum img / (icount img : ℚ)

/-- `tensor.max()` of a flattened nonempty value list (`0` on empty input,
which never arises for a real tensor). -/
def listMax : List ℚ → ℚ
  | [] => 0
  | [x] => x
  | x :: y :: t => max x (listMax (y :: t))

/-- `tensor.min()` of a flattened nonempty value list. -/
def listMin : List ℚ → ℚ
  | [] => 0
  | [x] => x
  | x :: y :: t => min x (listMin (y :: t))

/-- The `1e-8` guard used by every CAM normalization in the service. -/
def eps : ℚ := 1 / 100000000

/-- Shared post-processing of all three CAM classes
(`chest_xray_service.py` lines 81‑87, 116‑121, 179‑184):
`cam = F.relu(cam)`, then min‑max normalize with the `1e-8`-guarded
denominator, but only when `cam_max > cam_min`; otherwise the map is
returned as it stands after the ReLU. -/
def normalizeCam (cam0 : Image) : Image :=
  let cam := imap relu cam0
  let camMin := listMin (vals cam)
  let camMax := listMax (vals cam)
  if camMin < camMax then
    imap (fun v => (v - camMin) / (camMax - camMin + eps)) cam
  else cam

/-- `torch.zeros(activations.shape[2:])`. -/
def zeroImage (h w : Nat) : Image := List.replicate h (List.replicate w 0)

/-- Spatial shape `(H', W')` of the captured activation stack. -/
def camSpatial (acts : List Image) : Nat × Nat :=
  ((acts.headD []).length, ((acts.headD []).headD []).length)

/-- The channel-combination loop shared by GradCAM and GradCAM++:
`cam = torch.zeros(shape); for i, w in enumerate(weights[0]):
cam += w * activations[0, i]`. -/
def weightedSum (ws : List ℚ) (acts : List Image) : Image :=
  (ws.zip acts).foldl
    (fun acc p => imap2 (· + ·) acc (imap (fun v => p.1 * v) p.2))
    (zeroImage (camSpatial acts).1 (camSpatial acts).2)

/-- The pre-normalization GradCAM map (`GradCAM.__call__`, lines 67‑79):
gradients are passed through ReLU, per-channel weights are the spatial
mean of the rectified gradients, and channels are combined by
`weightedSum`. -/
def gradCAMRaw (acts grads : List Image) : Image :=
  weightedSum ((grads.map (imap relu)).map imean) acts

/-- `GradCAM.__call__` (lines 59‑88): the raw weighted map followed by the
shared ReLU + guarded min-max normalization. -/
def gradCAM (acts grads : List Image) : Image :=
  normalizeCam (gradCAMRaw acts grads)

/-- The pre-normalization GradCAM++ map (`GradCAMPlusPlus.__call__`,
lines 100‑114): per channel,
`alpha = g² / (2·g² + Σ_spatial(a·g³) + 1e-8)` and
`weight = Σ_spatial(alpha · ReLU(g))`, then the same channel
combination. -/
def gradCAMppRaw (acts grads : List Image) : Image :=
  weightedSum
    ((acts.zip grads).map (fun p =>
      let denomSum := isum (imap2 (fun av gv => av * gv ^ 3) p.1 p.2)
      let alpha := imap (fun gv => gv ^ 2 / (2 * gv ^ 2 + denomSum + eps)) p.2
      isum (imap2 (fun al gv => al * relu gv) alpha p.2)))
    acts

/-- `GradCAMPlusPlus.__call__` (lines 92‑123). -/
def gradCAMpp (acts grads : List Image) : Image :=
  normalizeCam (gradCAMppRaw acts grads)

/-! ### Bilinear resampling

Models the half-pixel-aligned bilinear interpolation shared by
`F.interpolate(..., mode='bilinear', align_corners=False)` (ScoreCAM's
channel upsampling) and `cv2.resize(..., interpolation=cv2.INTER_LINEAR)`
(the renderer), with replicated borders. -/

/-- Read a source pixel with integer coordinates clamped into range. -/
def pixelAt (src : Image) (y x : ℤ) : ℚ :=
  let sh : ℤ := src.length
  let sw : ℤ := (src.headD []).length
  let yc := (max 0 (min y (sh - 1))).toNat
  let xc := (max 0 (min x (sw - 1))).toNat
  (src.getD yc []).getD xc 0

/-- Bilinear sample of `src` at fractional source coordinates. -/
def sampleBilinear (src : Image) (fy fx : ℚ) : ℚ :=
  let y0 : ℤ := ⌊fy⌋
  let x0 : ℤ := ⌊fx⌋
  let dy := fy - (y0 : ℚ)
  let dx := fx - (x0 : ℚ)
  (1 - dy) * ((1 - dx) * pixelAt src y0 x0 + dx * pixelAt src y0 (x0 + 1)) +
    dy * ((1 - dx) * pixelAt src (y0 + 1) x0 + dx * pixelAt src (y0 + 1) (x0 + 1))

/-- Resize a single-channel map to `W × H` (width × height) by half-pixel
aligned bilinear interpolation. -/
def resizeBilinear (src : Image) (W H : Nat) : Image :=
  let sh : ℚ := src.length
  let sw : ℚ := (src.headD []).length
  (List.range H).map (fun (y : Nat) =>
    (List.range W).map (fun (x : Nat) =>
      sampleBilinear src
        (((y : ℚ) + 1 / 2) * (sh / (H : ℚ)) - 1 / 2)
        (((x : ℚ) + 1 / 2) * (sw / (W : ℚ)) - 1 / 2)))

/-! ### ScoreCAM -/

/-- A model invocation event: one forward pass or one backward pass of the
shared classifier. -/
inductive Ev where
  | fwd
  | bwd
deriving DecidableEq, Repr

/-- The frozen classifier with the target-layer forward hook attached: one
forward pass yields both the logits and the captured target-layer
activation stack. The network itself (DenseNet-121) is an external
collaborator, so it enters as opaque functions of the input channels. -/
structure HookedModel where
  logits : List Image → List ℚ
  acts : List Image → List Image

/-- `F.softmax` over all spatial positions of one (flattened) map, with the
library exponential abstracted as `fexp`. -/
def softmaxImg (fexp : ℚ → ℚ) (img : Image) : Image :=
  let exps := imap fexp img
  imap (fun v => v / isum exps) exps

/-- Stable descending insertion of index `i` into an index list sorted by
score: ties keep the earlier index first, matching `torch.topk`. -/
def insertByScore (scores : List ℚ) (i : Nat) : List Nat → List Nat
  | [] => [i]
  | j :: t =>
    if scores.getD j 0 < scores.getD i 0 then i :: j :: t
    else j :: insertByScore scores i t

/-- `torch.topk(scores, k).indices`: the indices of the `k` largest scores
in descending score order. -/
def topkIdx (scores : List ℚ) (k : Nat) : List Nat :=
  ((List.range scores.length).foldl (fun acc i => insertByScore scores i acc) []).take k

/-- One iteration of ScoreCAM's channel loop (lines 150‑177): upsample the
channel activation to input resolution, softmax-normalize it spatially,
mask the input with it, run one forward pass, and accumulate
`score · normalized_map · channel_importance` into the buffer. -/
def scoreCAMStep (M : HookedModel) (fexp : ℚ → ℚ) (input : List Image)
    (activations : List Image) (importance : List ℚ) (target : Nat)
    (h w : Nat) (acc : Image × List Ev) (i : Nat) : Image × List Ev :=
  let a := activations.getD i (zeroImage 1 1)
  let upsampled := resizeBilinear a w h
  let upsampledNorm := softmaxImg fexp upsampled
  let maskedInput := input.map (fun ch => imap2 (· * ·) ch upsampledNorm)
  let output := M.logits maskedInput
  let score := output.getD target 0
  (imap2 (· + ·) acc.1 (imap (fun v => score * v * importance.getD i 0) upsampledNorm),
    acc.2 ++ [Ev.fwd])

/-- The pre-normalization ScoreCAM accumulation (`ScoreCAM.__call__`,
lines 127‑177) together with its model-invocation trace: one initial
forward pass captures the activations (line 133); the activations are
rectified, channel importance is the mean rectified activation, the top
`min(64, C)` channels are kept, and each kept channel costs exactly one
more forward pass. No backward pass is ever triggered. -/
def scoreCAMAccum (M : HookedModel) (fexp : ℚ → ℚ) (input : List Image)
    (target : Nat) : Image × List Ev :=
  let h := (input.headD []).length
  let w := ((input.headD []).headD []).length
  let activations := (M.acts input).map (imap relu)
  let importance := activations.map imean
  let k := min 64 activations.length
  let topk := topkIdx importance k
  topk.foldl (scoreCAMStep M fexp input activations importance target h w)
    (zeroImage h w, [Ev.fwd])

/-- `ScoreCAM.__call__` (lines 127‑186): the accumulated map followed by
the shared ReLU + guarded min-max normalization, paired with the trace of
model invocations it performs. -/
def scoreCAM (M : HookedModel) (fexp : ℚ → ℚ) (input : List Image)
    (target : Nat) : Image × List Ev :=
  let r := scoreCAMAccum M fexp input target
  (normalizeCam r.1, r.2)

/-! ### Classification, thresholding and target-class selection -/

/-- `torch.sigmoid` on a scalar logit, with the library exponential
abstracted as `fexp`. -/
def sigmoidQ (fexp : ℚ → ℚ) (x : ℚ) : ℚ := 1 / (1 + fexp (-x))

/-- One thresholded call: `(probabilities[:, i] > threshold)` — strict
comparison, used identically in `Predictor.predict_single_image`
(line 245) and `ChestXrayService.predict` (line 352). -/
def thresholdCall (p t : ℚ) : Bool := p > t

/-- The thresholding loop (lines 350‑352): `predictions` starts as
`torch.zeros_like(probabilities)` and entry `i` is set to
`probabilities[i] > thresholds[i]` for each threshold index. -/
def predsOf (probs thresholds : List ℚ) : List Bool :=
  (List.range probs.length).map (fun i =>
    if i < thresholds.length then thresholdCall (probs.getD i 0) (thresholds.getD i 0)
    else false)

/-- `np.argmax`: the first index attaining the maximum (`0` on the empty
list, which never arises for a real probability vector). -/
def argmaxIdx : List ℚ → Nat
  | [] => 0
  | [_] => 0
  | x :: y :: t => if x < listMax (y :: t) then argmaxIdx (y :: t) + 1 else 0

/-- `class_idx = np.argmax(pred_probs)` (line 375): the class explained by
the heatmap is the global argmax of the probability vector; the
thresholded calls play no part in the choice. -/
def explainClassIdx (probs : List ℚ) : Nat := argmaxIdx probs

/-! ### Service configuration (`backend/config.py`) -/

/-- `Config.NUM_CLASSES`. -/
def numClasses : Nat := 14

/-- `Config.DISEASE_LABELS`. -/
def diseaseLabels : List String :=
  ["Atelectasis", "Cardiomegaly", "Effusion", "Infiltration",
   "Mass", "Nodule", "Pneumonia", "Pneumothorax",
   "Consolidation", "Edema", "Emphysema", "Fibrosis",
   "Pleural_Thickening", "Hernia"]

/-- `Config.ALLOWED_EXTENSIONS`. -/
def allowedExtensions : List String := ["png", "jpg", "jpeg"]

/-- The lower-cased text after the last dot of a filename
(`filename.rsplit('.', 1)[1].lower()`), computed over the character
list. -/
def lowerExt (filename : String) : List Char :=
  ((filename.toList.reverse.takeWhile (fun c => c ≠ '.')).reverse).map Char.toLower

/-- `ChestXrayService.allowed_file` (lines 280‑281): the name contains a
dot and its lower-cased last extension is allowed. -/
def allowedFile (filename : String) : Bool :=
  filename.toList.contains '.' &&
    allowedExtensions.any (fun e => e.toList == lowerExt filename)

/-! ### `generate_heatmap` -/

/-- The keys of the `cam_classes` dispatch table (lines 291‑295), equally
the method whitelist of the `/predict` route (line 497). -/
def camClasses : List String := ["gradcam", "gradcam++", "scorecam"]

/-- Everything the service obtains from external collaborators for one
request: the hooked classifier, the target-layer gradient produced by
`target_score.backward()` for a given class (autodiff is the framework's,
so it enters as a function), the library exponential, and the decoded /
transformed image data (PIL + torchvision). -/
structure XrayEnv where
  model : HookedModel
  gradsFor : List Image → Nat → List Image
  fexp : ℚ → ℚ

/-- `ChestXrayService.generate_heatmap` (lines 290‑300): reject an
unsupported method name before any CAM object is built or any tensor is
touched, otherwise construct the chosen CAM afresh and call it. The
returned trace lists the model invocations performed (forward + backward
for the two gradient methods, the ScoreCAM trace otherwise). -/
def generateHeatmap (env : XrayEnv) (input : List Image) (classIdx : Nat)
    (camMethod : String) : Except String (Image × List Ev) :=
  if camMethod ∉ camClasses then .error "Unsupported CAM method"
  else if camMethod = "gradcam" then
    .ok (gradCAM (env.model.acts input) (env.gradsFor input classIdx), [Ev.fwd, Ev.bwd])
  else if camMethod = "gradcam++" then
    .ok (gradCAMpp (env.model.acts input) (env.gradsFor input classIdx), [Ev.fwd, Ev.bwd])
  else
    .ok (scoreCAM env.model env.fexp input classIdx)

/-! ### Heatmap rendering (`ChestXrayService.predict`, lines 391‑429)

Pixels are RGB triples of rationals during float arithmetic; the final
`astype(np.uint8)` truncation is `Int.floor` (its arguments are already
clipped to `[0, 255]`). `cv2.applyColorMap` is external, so the jet
colormap enters as a function parameter; the overlay arithmetic is
channel-wise, so the BGR↔RGB conversions around it (lines 409, 424, 428)
permute channels without affecting any per-channel value. -/

/-- An RGB pixel with rational channel values. -/
abbrev Px := ℚ × ℚ × ℚ

/-- `np.clip(x, lo, hi)`. -/
def clip (lo hi x : ℚ) : ℚ := min (max x lo) hi

/-- The resized-and-clipped saliency map (lines 393‑399):
`cv2.resize(heatmap, (W, H), interpolation=cv2.INTER_LINEAR)` followed by
`np.clip(·, 0, 1)`. -/
def resizedSaliency (heat : Image) (W H : Nat) : Image :=
  imap (clip 0 1) (resizeBilinear heat W H)

/-- Lines 403‑404: `np.uint8(255 * heatmap_resized)` then the colormap. -/
def colorizeHeatmap (colormap : Nat → Px) (heat : Image) (W H : Nat) :
    List (List Px) :=
  (resizedSaliency heat W H).map (fun row =>
    row.map (fun v => colormap (Int.floor (255 * v)).toNat))

/-- One overlay channel (lines 414‑415):
`heatmap_colored * 0.3 + original * 0.7`, clipped to `[0, 255]` and cast
to `uint8`. -/
def blendChan (h o : ℚ) : ℚ := (⌊clip 0 255 (h * (3 / 10) + o * (7 / 10))⌋ : ℤ)

/-- One overlay pixel. -/
def blendPx (h o : Px) : Px :=
  (blendChan h.1 o.1, blendChan h.2.1 o.2.1, blendChan h.2.2 o.2.2)

/-- The rendering tail of `ChestXrayService.predict` (lines 391‑429):
resize the saliency map to the original `(W, H)`, clip, colorize, and
alpha-blend onto the original image; returns the persisted
`(heatmap, superimposed)` pair. -/
def renderHeatmap (colormap : Nat → Px) (heat : Image)
    (orig : List (List Px)) (W H : Nat) :
    List (List Px) × List (List Px) :=
  let heatColored := colorizeHeatmap colormap heat W H
  (heatColored, List.zipWith (List.zipWith blendPx) heatColored orig)

/-! ### Hook registration on the shared model (`CAMBase._register_hooks`)

The target layer's hook lists are modelled by the identifiers of the
registered hooks in registration order; `register_forward_hook` /
`register_backward_hook` append a fresh entry, and nothing in the service
ever calls `remove()` on a handle. A forward pass through the layer runs
every forward hook currently registered, in order. -/

/-- The forward- and backward-hook lists carried by the target layer. -/
structure LayerHooks where
  fwdHooks : List Nat
  bwdHooks : List Nat
deriving DecidableEq, Repr

/-- Registering one forward and one backward hook on the layer
(`_register_hooks` body for a single layer, lines 44‑46). -/
def registerHooksOnce (st : LayerHooks) : LayerHooks :=
  { fwdHooks := st.fwdHooks ++ [st.fwdHooks.length],
    bwdHooks := st.bwdHooks ++ [st.bwdHooks.length] }

/-- `CAMBase.__init__` loops `_register_hooks` over `target_layers`;
`generate_heatmap` always passes the single layer `[self.target_layer]`
(line 298) and constructs a fresh CAM object per call, so each
`generate_heatmap` call adds exactly one forward and one backward hook to
the shared layer and removes none. -/
def generateHeatmapHookEffect (st : LayerHooks) : LayerHooks :=
  (List.range 1).foldl (fun s _ => registerHooksOnce s) st

/-- The layer's hook state after `n` heatmap generations against the
shared model, starting from a freshly loaded model with no hooks. -/
def hooksAfter : Nat → LayerHooks
  | 0 => ⟨[], []⟩
  | n + 1 => generateHeatmapHookEffect (hooksAfter n)

/-- A forward pass through the target layer invokes every registered
forward hook, in registration order. -/
def forwardPassInvokes (st : LayerHooks) : List Nat := st.fwdHooks

/-! ### The prediction pipeline (`ChestXrayService.predict`, lines 302‑472)

External collaborators entering as data: the uploaded file is its name
plus raw byte list; PIL decoding and the torchvision transform are a
function from the bytes to the decoded original image and the 512×512
input tensor; `uuid.uuid4()` is the request-unique prefix `uid`;
`hashlib.md5` is a fixed deterministic digest function of the byte list;
the Redis manager is an association list of stored results plus flags
saying which of its operations raise on this request. -/

/-- An uploaded file: `file.filename` and the saved raw bytes. -/
structure FileUpload where
  filename : String
  bytes : List Nat

/-- What PIL + torchvision produce from the raw bytes: the decoded
original RGB image with its `(width, height)`, and the transformed
512×512 normalized input tensor. -/
structure DecodedImage where
  tensorChannels : List Image
  original : List (List Px)
  originalW : Nat
  originalH : Nat

/-- The full collaborator bundle used by `ChestXrayService.predict`. -/
structure ServiceEnv extends XrayEnv where
  decode : List Nat → DecodedImage
  colormap : Nat → Px

/-- `hashlib.md5(file_contents).hexdigest()`: the external digest is
modelled as a fixed deterministic function of the byte list. -/
def md5Digest (bytes : List Nat) : Nat :=
  bytes.foldl (fun h b => (h * 257 + b % 256 + 1) % 2 ^ 128) 0

/-- `cache_key = f"chest_xray:{file_hash}:{cam_method}"` (line 319). -/
def cacheKey (bytes : List Nat) (camMethod : String) : String :=
  "chest_xray:" ++ toString (md5Digest bytes) ++ ":" ++ camMethod

/-- The cached / returned prediction result (lines 439‑453). -/
structure PredResult where
  predictions : List (String × Bool × ℚ)
  heatmapPath : String
  superimposedPath : String
  camMethod : String
  originalSize : Nat × Nat
  modelInputSize : Nat × Nat
deriving DecidableEq, Repr

/-- The Redis cache as seen by one request: the stored entries and which
of the cache operations raise an exception during this request
(`get_redis_manager`, `get_cache`, `set_cache`). -/
structure CacheSt where
  entries : List (String × PredResult)
  mgrRaises : Bool
  getRaises : Bool
  setRaises : Bool

/-- Outcome of one `predict` call: the returned value or raised error, the
trace of classifier invocations performed, the cache contents afterwards,
and the rendered images persisted to the result store (if any). -/
structure PredictOutcome where
  result : Except String PredResult
  events : List Ev
  cacheAfter : List (String × PredResult)
  persisted : Option (List (List Px) × List (List Px))

/-- `Predictor.predict_single_image` (lines 236‑246): one forward pass,
independent per-class sigmoid, and the strict thresholding loop; returns
`(predictions, probabilities)`. -/
def predictSingleImage (env : ServiceEnv) (thresholds : List ℚ)
    (bytes : List Nat) : List Bool × List ℚ :=
  let probs := (env.model.logits (env.decode bytes).tensorChannels).map (sigmoidQ env.fexp)
  (predsOf probs thresholds, probs)

/-- `ChestXrayService.predict` (lines 302‑472). Validation, the
content-hash cache check (any cache exception is caught and the pipeline
continues), classification (one forward pass), strict thresholding,
argmax target-class selection, heatmap generation and rendering, result
assembly, and the best-effort cache store (`secure_filename` is the
identity on the already-safe names considered here). -/
def servicePredict (env : ServiceEnv) (thresholds : List ℚ)
    (upload : FileUpload) (uid : String) (camMethod : String)
    (cache : CacheSt) : PredictOutcome :=
  if upload.filename == "" || !allowedFile upload.filename then
    ⟨.error "Invalid file format. Only PNG, JPG, JPEG allowed", [], cache.entries, none⟩
  else
    let filename := uid ++ "_" ++ upload.filename
    let key := cacheKey upload.bytes camMethod
    let hit : Option PredResult :=
      if cache.mgrRaises || cache.getRaises then none
      else cache.entries.lookup key
    match hit with
    | some cachedResult => ⟨.ok cachedResult, [], cache.entries, none⟩
    | none =>
      let d := env.decode upload.bytes
      let probs := (env.model.logits d.tensorChannels).map (sigmoidQ env.fexp)
      let predLabels := predsOf probs thresholds
      let classIdx := explainClassIdx probs
      match generateHeatmap env.toXrayEnv d.tensorChannels classIdx camMethod with
      | .error e => ⟨.error e, [Ev.fwd], cache.entries, none⟩
      | .ok (heat, camEvents) =>
        let rendered := renderHeatmap env.colormap heat d.original d.originalW d.originalH
        let results : PredResult :=
          { predictions := (List.range numClasses).map (fun i =>
              (diseaseLabels.getD i "", predLabels.getD i false, probs.getD i 0)),
            heatmapPath := "heatmap_" ++ camMethod ++ "_" ++ filename,
            superimposedPath := "superimposed_" ++ camMethod ++ "_" ++ filename,
            camMethod := camMethod,
            originalSize := (d.originalW, d.originalH),
            modelInputSize := (512, 512) }
        let entriesAfter :=
          if cache.mgrRaises || cache.setRaises then cache.entries
          else (key, results) :: cache.entries
        ⟨.ok results, Ev.fwd :: camEvents, entriesAfter, some rendered⟩

/-- A `/predict` route response: JSON body plus HTTP status. -/
inductive RouteResp where
  | ok (r : PredResult)
  | err (code : Nat) (msg : String)
deriving DecidableEq, Repr

/-- The `/predict` Flask route (lines 490‑503): missing file → 400,
`cam_method` outside the whitelist → 400 before the service (and hence
any model) is touched; service exceptions → 500. -/
def predictRoute (env : ServiceEnv) (thresholds : List ℚ) (cache : CacheSt)
    (hasFile : Bool) (upload : FileUpload) (uid : String)
    (camMethodForm : Option String) : RouteResp × List Ev :=
  if !hasFile then (.err 400 "No file provided", [])
  else
    let camMethod := camMethodForm.getD "gradcam"
    if camMethod ∉ camClasses then (.err 400 "Invalid CAM method", [])
    else
      let o := servicePredict env thresholds upload uid camMethod cache
      match o.result with
      | .ok r => (.ok r, o.events)
      | .error e => (.err 500 e, o.events)

/-! ### Spec-side formulas (for refinement comparisons only)

These definitions transcribe the specification's wording; the refinement
theorems below compare them against the source-derived definitions
above. -/

/-- The spec's GradCAM per-channel weight:
`weight_c = mean_over_spatial(ReLU(gradient_c))`. -/
def specGradCAMWeight (g : Image) : ℚ := imean (imap relu g)

/-- The spec's GradCAM++ per-channel alpha map:
`alpha_c = gradient_c² / (2·gradient_c² + Σ_spatial(activation_c·gradient_c³) + ε)`. -/
def specAlpha (a g : Image) : Image :=
  imap (fun gv => gv ^ 2 /
    (2 * gv ^ 2 + isum (imap2 (fun av gvv => av * gvv ^ 3) a g) + eps)) g

/-- The spec's GradCAM++ per-channel weight:
`weight_c = Σ_spatial(alpha_c · ReLU(gradient_c))`. -/
def specPPWeight (a g : Image) : ℚ :=
  isum (imap2 (fun al gv => al * relu gv) (specAlpha a g) g)

/-- The spec's overlay channel:
`0.3·heatmap_rgb + 0.7·original_rgb`, clipped to the valid 8-bit range and
cast to 8-bit. -/
def specBlendChan (h o : ℚ) : ℚ :=
  (⌊min (max (3 / 10 * h + 7 / 10 * o) 0) 255⌋ : ℤ)

/-! ### Concrete fixtures for witnesses and counterexamples -/

/-- A one-channel, one-logit hooked model used to evaluate ScoreCAM on a
concrete input. -/
def tinyModel : HookedModel := ⟨fun _ => [1], fun _ => [[[1]]]⟩

/-- A concrete collaborator environment for evaluating the pipeline:
14 zero logits, a single 1×1 activation channel, identity in place of the
library exponential, and a 1×1 decoded image. -/
def tinyEnv : ServiceEnv :=
  { model := ⟨fun _ => List.replicate 14 0, fun _ => [[[1]]]⟩,
    gradsFor := fun _ _ => [[[1]]],
    fexp := id,
    decode := fun _ => ⟨[[[1]]], [[(0, 0, 0)]], 1, 1⟩,
    colormap := fun _ => (0, 0, 0) }

/-- A concrete stored prediction result for cache-hit scenarios. -/
def tinyResult : PredResult :=
  ⟨[("Atelectasis", false, 1 / 2)], "h.png", "s.png", "gradcam", (1, 1), (512, 512)⟩

/-! ## Supporting lemmas -/

theorem vals_imap (f : ℚ → ℚ) (img : Image) :
    vals (imap f img) = (vals img).map f := by
  simp [vals, imap]

theorem le_listMax_of_mem : ∀ {l : List ℚ} {x : ℚ}, x ∈ l → x ≤ listMax l := by
  intro l
  induction l with
  | nil => intro x hx; cases hx
  | cons a t ih =>
    intro x hx
    cases t with
    | nil =>
      rcases List.mem_cons.mp hx with h | h
      · subst h; simp [listMax]
      · cases h
    | cons b u =>
      simp only [listMax]
      rcases List.mem_cons.mp hx with h | h
      · subst h; exact le_max_left _ _
      · exact le_trans (ih h) (le_max_right _ _)

theorem listMin_le_of_mem : ∀ {l : List ℚ} {x : ℚ}, x ∈ l → listMin l ≤ x := by
  intro l
  induction l with
  | nil => intro x hx; cases hx
  | cons a t ih =>
    intro x hx
    cases t with
    | nil =>
      rcases List.mem_cons.mp hx with h | h
      · subst h; simp [listMin]
      · cases h
    | cons b u =>
      simp only [listMin]
      rcases List.mem_cons.mp hx with h | h
      · subst h; exact min_le_left _ _
      · exact le_trans (min_le_right _ _) (ih h)

theorem eps_pos : 0 < eps := by norm_num [eps]

theorem normalizeCam_of_lt {c : Image}
    (h : listMin (vals (imap relu c)) < listMax (vals (imap relu c))) :
    normalizeCam c =
      imap (fun v => (v - listMin (vals (imap relu c))) /
        (listMax (vals (imap relu c)) - listMin (vals (imap relu c)) + eps))
        (imap relu c) := by
  simp only [normalizeCam]
  rw [if_pos h]

theorem normalizeCam_of_not_lt {c : Image}
    (h : ¬ listMin (vals (imap relu c)) < listMax (vals (imap relu c))) :
    normalizeCam c = imap relu c := by
  simp only [normalizeCam]
  rw [if_neg h]

theorem normalizeCam_mem_unit {c : Image}
    (h : listMin (vals (imap relu c)) < listMax (vals (imap relu c))) :
    ∀ v ∈ vals (normalizeCam c), 0 ≤ v ∧ v ≤ 1 := by
  intro v hv
  rw [normalizeCam_of_lt h, vals_imap] at hv
  rcases List.mem_map.mp hv with ⟨u, hu, rfl⟩
  have hmin := listMin_le_of_mem hu
  have hmaxu := le_listMax_of_mem hu
  have hden :
      0 < listMax (vals (imap relu c)) - listMin (vals (imap relu c)) + eps := by
    have := eps_pos; linarith
  refine ⟨div_nonneg (by linarith) hden.le, ?_⟩
  rw [div_le_one hden]
  have := eps_pos; linarith

/-! ## Claims -/

/-- **C1** (corrected). Every CAM method funnels its pre-normalization map
through the shared `normalizeCam`. When the rectified map is not
spatially constant, every returned value lies in `[0, 1]` and the guarded
denominator is strictly positive, so no NaN/Inf can arise. But in the
degenerate spatially-constant case the map is returned *as the constant
rectified value*, not forced to all-zero: it is all-zero only when that
constant is `≤ 0`. -/
theorem saliency_unit_range_or_constant :
    (∀ cam0 : Image,
      (listMin (vals (imap relu cam0)) < listMax (vals (imap relu cam0)) →
        ∀ v ∈ vals (normalizeCam cam0), 0 ≤ v ∧ v ≤ 1) ∧
      (¬ listMin (vals (imap relu cam0)) < listMax (vals (imap relu cam0)) →
        normalizeCam cam0 = imap relu cam0)) ∧
    (∀ acts grads : List Image,
      gradCAM acts grads = normalizeCam (gradCAMRaw acts grads)) ∧
    (∀ acts grads : List Image,
      gradCAMpp acts grads = normalizeCam (gradCAMppRaw acts grads)) ∧
    (∀ (M : HookedModel) (fexp : ℚ → ℚ) (input : List Image) (t : Nat),
      (scoreCAM M fexp input t).1 = normalizeCam (scoreCAMAccum M fexp input t).1) :=
  ⟨fun _ => ⟨fun h => normalizeCam_mem_unit h, fun h => normalizeCam_of_not_lt h⟩,
   fun _ _ => rfl, fun _ _ => rfl, fun _ _ _ _ => rfl⟩

/-- Witness for C1: a non-constant map is normalized into `[0, 1]`; a
constant map is returned as its rectified self. -/
theorem saliency_unit_range_or_constant_witness :
    (0 ≤ (0 : ℚ) ∧ (0 : ℚ) ≤ 1) ∧ normalizeCam [[3, 3]] = imap relu [[3, 3]] :=
  ⟨(saliency_unit_range_or_constant.1 [[1, 2]]).1
      (by norm_num [imap, vals, listMin, listMax, relu]) 0
      (by norm_num [normalizeCam, imap, vals, listMin, listMax, relu, eps]),
   (saliency_unit_range_or_constant.1 [[3, 3]]).2
      (by norm_num [imap, vals, listMin, listMax, relu])⟩

/-- Counterexample to C1 as stated: one channel of constant activations
`[[2, 2]]` with gradient `[[1, 1]]` makes the pre-normalization GradCAM
map spatially constant, and the returned map is the constant `2` — a
value outside `[0, 1]` and not the all-zero map. -/
theorem saliency_unit_range_cex :
    gradCAM [[[2, 2]]] [[[1, 1]]] = [[2, 2]] ∧
    listMin (vals (gradCAMRaw [[[2, 2]]] [[[1, 1]]])) =
      listMax (vals (gradCAMRaw [[[2, 2]]] [[[1, 1]]])) ∧
    ¬ ((2 : ℚ) ≤ 1) := by
  norm_num [gradCAM, gradCAMRaw, weightedSum, camSpatial, zeroImage, imap, imap2,
    imean, isum, icount, vals, normalizeCam, listMin, listMax, relu, eps, List.replicate]

/-- **C2** (corrected). GradCAM's per-channel weights, channel
combination and guarded min-max normalization are exactly the spec's
formulas; but when the rectified map's maximum equals its minimum the
code skips the normalization and returns the rectified map unchanged —
it does *not* return an all-zero map. -/
theorem gradcam_formula :
    (∀ acts grads : List Image,
      gradCAM acts grads =
        normalizeCam (weightedSum (grads.map specGradCAMWeight) acts)) ∧
    (∀ cam0 : Image,
      (listMin (vals (imap relu cam0)) < listMax (vals (imap relu cam0)) →
        normalizeCam cam0 =
          imap (fun v => (v - listMin (vals (imap relu cam0))) /
            (listMax (vals (imap relu cam0)) - listMin (vals (imap relu cam0)) + eps))
            (imap relu cam0)) ∧
      (listMax (vals (imap relu cam0)) = listMin (vals (imap relu cam0)) →
        normalizeCam cam0 = imap relu cam0)) := by
  constructor
  · intro acts grads
    unfold gradCAM gradCAMRaw
    rw [List.map_map]
    rfl
  · intro cam0
    exact ⟨fun h => normalizeCam_of_lt h,
      fun h => normalizeCam_of_not_lt (by rw [h]; exact lt_irrefl _)⟩

/-- Witness for C2: the normalization formula on a non-constant map, and
the skipped normalization on a constant map. -/
theorem gradcam_formula_witness :
    normalizeCam [[0, 1]] =
      imap (fun v => (v - listMin (vals (imap relu [[0, 1]]))) /
        (listMax (vals (imap relu [[0, 1]])) - listMin (vals (imap relu [[0, 1]])) + eps))
        (imap relu [[0, 1]]) ∧
    normalizeCam [[5, 5]] = imap relu [[5, 5]] :=
  ⟨(gradcam_formula.2 [[0, 1]]).1 (by norm_num [imap, vals, listMin, listMax, relu]),
   (gradcam_formula.2 [[5, 5]]).2 (by norm_num [imap, vals, listMin, listMax, relu])⟩

/-- Counterexample to C2 as stated: with activations `[[1, 1]]` and
gradient `[[1, 1]]` the map's maximum equals its minimum, yet GradCAM
returns the constant map `[[1, 1]]`, not the all-zero map. -/
theorem gradcam_degenerate_cex :
    listMax (vals (gradCAMRaw [[[1, 1]]] [[[1, 1]]])) =
      listMin (vals (gradCAMRaw [[[1, 1]]] [[[1, 1]]])) ∧
    gradCAM [[[1, 1]]] [[[1, 1]]] = [[1, 1]] ∧
    [[(1 : ℚ), 1]] ≠ zeroImage 1 2 := by
  norm_num [gradCAM, gradCAMRaw, weightedSum, camSpatial, zeroImage, imap, imap2,
    imean, isum, icount, vals, normalizeCam, listMin, listMax, relu, eps, List.replicate]

theorem getD_le_listMax : ∀ (l : List ℚ) (i : Nat), i < l.length →
    l.getD i 0 ≤ listMax l := by
  intro l
  induction l with
  | nil => intro i h; simp at h
  | cons a t ih =>
    intro i hi
    cases t with
    | nil =>
      cases i with
      | zero => simp [listMax]
      | succ j => simp at hi
    | cons b u =>
      cases i with
      | zero => simp only [List.getD_cons_zero, listMax]; exact le_max_left _ _
      | succ j =>
        simp only [List.getD_cons_succ, listMax]
        exact le_trans (ih j (by simpa using hi)) (le_max_right _ _)

theorem getD_argmaxIdx_eq_listMax : ∀ (l : List ℚ), l ≠ [] →
    l.getD (argmaxIdx l) 0 = listMax l := by
  intro l
  induction l with
  | nil => intro h; exact absurd rfl h
  | cons a t ih =>
    intro _
    cases t with
    | nil => simp [argmaxIdx, listMax]
    | cons b u =>
      simp only [argmaxIdx, listMax]
      by_cases h : a < listMax (b :: u)
      · rw [if_pos h]
        simp only [List.getD_cons_succ]
        rw [ih (List.cons_ne_nil b u)]
        exact (max_eq_right h.le).symm
      · rw [if_neg h]
        simp only [List.getD_cons_zero]
        exact (max_eq_left (not_lt.mp h)).symm

/-- **C3** (confirmed). The class explained by the heatmap is the first
global argmax of the probability vector (`np.argmax`): its probability
dominates every entry. `explainClassIdx` takes no thresholds at all, and
the concrete second conjunct exhibits a run where the explained class's
own thresholded call is negative (probability `2/5` against threshold
`1/2`) yet it is still the explained class. -/
theorem explain_class_is_argmax :
    (∀ (probs : List ℚ) (i : Nat), i < probs.length →
      probs.getD i 0 ≤ probs.getD (explainClassIdx probs) 0) ∧
    (explainClassIdx [2 / 5, 3 / 10] = 0 ∧
      (predsOf [2 / 5, 3 / 10] [1 / 2, 1 / 5]).getD 0 true = false) := by
  constructor
  · intro probs i hi
    have hne : probs ≠ [] := by
      intro h; rw [h] at hi; simp at hi
    rw [explainClassIdx, getD_argmaxIdx_eq_listMax probs hne]
    exact getD_le_listMax probs i hi
  · constructor
    · norm_num [explainClassIdx, argmaxIdx, listMax]
    · norm_num [predsOf, thresholdCall, List.range, List.range.loop]

/-- Witness for C3: the argmax domination applied at a concrete
probability vector. -/
theorem explain_class_is_argmax_witness :
    ([1 / 4, 3 / 4] : List ℚ).getD 0 0 ≤
      ([1 / 4, 3 / 4] : List ℚ).getD (explainClassIdx [1 / 4, 3 / 4]) 0 :=
  explain_class_is_argmax.1 [1 / 4, 3 / 4] 0 (by norm_num)

/-- **C6** (confirmed). A thresholded call is strictly `probability >
threshold`, both in `Predictor.predict_single_image` and in
`ChestXrayService.predict`: equality yields negative, strict excess
yields positive, entry-wise through the thresholding loop. -/
theorem strict_threshold :
    (∀ p t : ℚ, (thresholdCall p t = true ↔ t < p) ∧
      (p = t → thresholdCall p t = false)) ∧
    (∀ (probs thresholds : List ℚ) (i : Nat),
      i < probs.length → i < thresholds.length →
      ((predsOf probs thresholds).getD i false = true ↔
        thresholds.getD i 0 < probs.getD i 0)) := by
  constructor
  · intro p t
    constructor
    · simp [thresholdCall, gt_iff_lt]
    · intro h; subst h; simp [thresholdCall]
  · intro probs thresholds i hip hit
    have hlen : i < (predsOf probs thresholds).length := by
      simpa [predsOf] using hip
    rw [List.getD_eq_getElem _ _ hlen]
    simp [predsOf, thresholdCall, hit, gt_iff_lt,
      List.getD_eq_getElem _ _ hip, List.getD_eq_getElem _ _ hit]

/-- Witness for C6: the spec's boundary cases — probability `1/2` against
threshold `1/2` is negative, probability `0.50001` is positive, and the
same boundary through the thresholding loop. -/
theorem strict_threshold_witness :
    thresholdCall (1 / 2) (1 / 2) = false ∧
    thresholdCall (50001 / 100000) (1 / 2) = true ∧
    (predsOf [1 / 2, 50001 / 100000] [1 / 2, 1 / 2]).getD 1 false = true :=
  ⟨(strict_threshold.1 (1 / 2) (1 / 2)).2 rfl,
   (strict_threshold.1 (50001 / 100000) (1 / 2)).1.mpr (by norm_num),
   (strict_threshold.2 [1 / 2, 50001 / 100000] [1 / 2, 1 / 2] 1
      (by norm_num) (by norm_num)).mpr (by norm_num)⟩

/-- **C5** (confirmed). GradCAM++ computes exactly the spec's per-channel
alpha and weight formulas and then combines channels and normalizes
through the very same `weightedSum` and `normalizeCam` as GradCAM. -/
theorem gradcampp_formula :
    (∀ acts grads : List Image,
      gradCAMpp acts grads =
        normalizeCam (weightedSum
          ((acts.zip grads).map (fun p => specPPWeight p.1 p.2)) acts)) ∧
    (∀ acts grads : List Image,
      gradCAMpp acts grads = normalizeCam (gradCAMppRaw acts grads) ∧
      gradCAM acts grads = normalizeCam (gradCAMRaw acts grads)) :=
  ⟨fun _ _ => rfl, fun _ _ => ⟨rfl, rfl⟩⟩

theorem insertByScore_length (s : List ℚ) (i : Nat) :
    ∀ l : List Nat, (insertByScore s i l).length = l.length + 1 := by
  intro l
  induction l with
  | nil => rfl
  | cons j t ih =>
    simp only [insertByScore]
    by_cases h : s.getD j 0 < s.getD i 0
    · rw [if_pos h]; rfl
    · rw [if_neg h]; simp [ih]

theorem sortFold_length (s : List ℚ) :
    ∀ (l : List Nat) (acc : List Nat),
      (l.foldl (fun a i => insertByScore s i a) acc).length =
        acc.length + l.length := by
  intro l
  induction l with
  | nil => intro acc; simp
  | cons j t ih =>
    intro acc
    simp only [List.foldl_cons]
    rw [ih, insertByScore_length]
    simp only [List.length_cons]
    omega

theorem topkIdx_length (s : List ℚ) (k : Nat) :
    (topkIdx s k).length = min k s.length := by
  simp [topkIdx, sortFold_length]

theorem scoreCAM_foldl_events (M : HookedModel) (fexp : ℚ → ℚ)
    (input activations : List Image) (importance : List ℚ) (t h w : Nat) :
    ∀ (l : List Nat) (acc : Image × List Ev),
      (l.foldl (scoreCAMStep M fexp input activations importance t h w) acc).2 =
        acc.2 ++ List.replicate l.length Ev.fwd := by
  intro l
  induction l with
  | nil => intro acc; simp
  | cons i rest ih =>
    intro acc
    simp only [List.foldl_cons]
    rw [ih]
    simp [scoreCAMStep, List.replicate_succ]

/-- **C4** (corrected). Per saliency-map computation ScoreCAM performs
exactly `min(64, channel_count) + 1` forward passes — the initial
activation-capturing pass of line 133 plus one per selected channel — and
never triggers a backward pass. The spec's bound `min(64, channel_count)`
misses the initial pass. -/
theorem scorecam_forward_count (M : HookedModel) (fexp : ℚ → ℚ)
    (input : List Image) (t : Nat) :
    ((scoreCAM M fexp input t).2).count Ev.fwd =
      min 64 (M.acts input).length + 1 ∧
    ((scoreCAM M fexp input t).2).count Ev.bwd = 0 := by
  have hev : (scoreCAM M fexp input t).2 =
      Ev.fwd :: List.replicate (min 64 (M.acts input).length) Ev.fwd := by
    simp only [scoreCAM, scoreCAMAccum]
    rw [scoreCAM_foldl_events, topkIdx_length]
    simp only [List.length_map, List.singleton_append]
    rw [Nat.min_assoc, Nat.min_self]
  rw [hev]
  simp [List.count_cons, List.count_replicate]

/-- Counterexample to C4 as stated: on a one-channel model the computation
performs two forward passes, exceeding `min(64, 1) = 1`. -/
theorem scorecam_forward_count_cex :
    ¬ (((scoreCAM tinyModel id [[[1]]] 0).2).count Ev.fwd ≤
        min 64 (tinyModel.acts [[[1]]]).length) := by
  have hev : (scoreCAM tinyModel id [[[1]]] 0).2 = [Ev.fwd, Ev.fwd] := by
    simp only [scoreCAM, scoreCAMAccum]
    rw [scoreCAM_foldl_events, topkIdx_length]
    norm_num [tinyModel, List.replicate]
  rw [hev]
  norm_num [tinyModel]

/-- **C7** (confirmed). A request whose `cam_method` is outside
`{gradcam, gradcam++, scorecam}` is rejected by the `/predict` route with
the 400 `Invalid CAM method` error before `service.predict` is entered:
the model-invocation trace is empty, so no classifier forward pass and no
tensor computation ever happens. -/
theorem unsupported_method_rejected (env : ServiceEnv) (thresholds : List ℚ)
    (cache : CacheSt) (upload : FileUpload) (uid m : String)
    (h : m ∉ camClasses) :
    (predictRoute env thresholds cache true upload uid (some m)).1 =
      RouteResp.err 400 "Invalid CAM method" ∧
    (predictRoute env thresholds cache true upload uid (some m)).2 = [] := by
  simp [predictRoute, h]

/-- Witness for C7: `cam_method="foo"` is rejected with an empty
invocation trace. -/
theorem unsupported_method_rejected_witness :
    (predictRoute tinyEnv (List.replicate 14 (1 / 2)) ⟨[], false, false, false⟩
        true ⟨"x.png", [0]⟩ "u" (some "foo")).1 =
      RouteResp.err 400 "Invalid CAM method" ∧
    (predictRoute tinyEnv (List.replicate 14 (1 / 2)) ⟨[], false, false, false⟩
        true ⟨"x.png", [0]⟩ "u" (some "foo")).2 = [] :=
  unsupported_method_rejected tinyEnv (List.replicate 14 (1 / 2))
    ⟨[], false, false, false⟩ ⟨"x.png", [0]⟩ "u" "foo" (by decide)

/-- **C8** (confirmed). The cache key is a deterministic content hash of
the raw bytes and the method, so identical inputs give identical keys; a
cache hit returns the stored result unchanged with an empty invocation
trace and an unchanged cache; and every combination of
`get_redis_manager` / `get_cache` / `set_cache` failures is caught,
leaving the returned result and the computation trace identical to those
of a working (empty) cache. -/
theorem cache_behavior :
    (∀ (b1 b2 : List Nat) (m1 m2 : String), b1 = b2 → m1 = m2 →
      cacheKey b1 m1 = cacheKey b2 m2) ∧
    (∀ (env : ServiceEnv) (thresholds : List ℚ) (upload : FileUpload)
       (uid m : String) (entries : List (String × PredResult)) (r : PredResult),
      (upload.filename == "" || !allowedFile upload.filename) = false →
      entries.lookup (cacheKey upload.bytes m) = some r →
      (servicePredict env thresholds upload uid m ⟨entries, false, false, false⟩).result =
          .ok r ∧
        (servicePredict env thresholds upload uid m ⟨entries, false, false, false⟩).events =
          [] ∧
        (servicePredict env thresholds upload uid m ⟨entries, false, false, false⟩).cacheAfter =
          entries) ∧
    (∀ (env : ServiceEnv) (thresholds : List ℚ) (upload : FileUpload)
       (uid m : String) (mgrR getR setR : Bool),
      (servicePredict env thresholds upload uid m ⟨[], mgrR, getR, setR⟩).result =
          (servicePredict env thresholds upload uid m ⟨[], false, false, false⟩).result ∧
        (servicePredict env thresholds upload uid m ⟨[], mgrR, getR, setR⟩).events =
          (servicePredict env thresholds upload uid m ⟨[], false, false, false⟩).events) := by
  refine ⟨fun b1 b2 m1 m2 hb hm => by rw [hb, hm], ?_, ?_⟩
  · intro env thresholds upload uid m entries r hval hhit
    simp [servicePredict, hval, hhit]
  · intro env thresholds upload uid m mgrR getR setR
    by_cases hval : (upload.filename == "" || !allowedFile upload.filename) = true
    · simp [servicePredict, hval]
    · rcases hgen : generateHeatmap env.toXrayEnv
          (env.decode upload.bytes).tensorChannels
          (explainClassIdx ((env.model.logits (env.decode upload.bytes).tensorChannels).map
            (sigmoidQ env.fexp))) m with e | pr
      · simp [servicePredict, hval, List.lookup, hgen]
      · simp [servicePredict, hval, List.lookup, hgen]

/-- Witness for C8: identical bytes and method give the identical key, and
a stored result for that key is returned unchanged with an empty trace
and untouched cache. -/
theorem cache_behavior_witness :
    cacheKey [7] "gradcam" = cacheKey [7] "gradcam" ∧
    ((servicePredict tinyEnv (List.replicate 14 (1 / 2)) ⟨"img.png", [7]⟩ "u"
        "gradcam" ⟨[(cacheKey [7] "gradcam", tinyResult)], false, false, false⟩).result =
        .ok tinyResult ∧
      (servicePredict tinyEnv (List.replicate 14 (1 / 2)) ⟨"img.png", [7]⟩ "u"
        "gradcam" ⟨[(cacheKey [7] "gradcam", tinyResult)], false, false, false⟩).events =
        [] ∧
      (servicePredict tinyEnv (List.replicate 14 (1 / 2)) ⟨"img.png", [7]⟩ "u"
        "gradcam" ⟨[(cacheKey [7] "gradcam", tinyResult)], false, false, false⟩).cacheAfter =
        [(cacheKey [7] "gradcam", tinyResult)]) :=
  ⟨cache_behavior.1 [7] [7] "gradcam" "gradcam" rfl rfl,
   cache_behavior.2.1 tinyEnv (List.replicate 14 (1 / 2)) ⟨"img.png", [7]⟩ "u"
     "gradcam" [(cacheKey [7] "gradcam", tinyResult)] tinyResult (by decide) rfl⟩

theorem clip01_bounds (x : ℚ) : 0 ≤ clip 0 1 x ∧ clip 0 1 x ≤ 1 := by
  unfold clip
  exact ⟨le_min (le_max_right x 0) zero_le_one, min_le_right _ _⟩

theorem resizeBilinear_length (src : Image) (W H : Nat) :
    (resizeBilinear src W H).length = H := by
  simp only [resizeBilinear, List.length_map, List.length_range]

theorem resizeBilinear_rows (src : Image) (W H : Nat) :
    ∀ r ∈ resizeBilinear src W H, r.length = W := by
  intro r hr
  simp only [resizeBilinear, List.mem_map] at hr
  rcases hr with ⟨y, _, rfl⟩
  simp only [List.length_map, List.length_range]

theorem resizedSaliency_length (heat : Image) (W H : Nat) :
    (resizedSaliency heat W H).length = H := by
  simp [resizedSaliency, imap, resizeBilinear_length]

theorem resizedSaliency_rows (heat : Image) (W H : Nat) :
    ∀ r ∈ resizedSaliency heat W H, r.length = W := by
  intro r hr
  simp only [resizedSaliency, imap, List.mem_map] at hr
  rcases hr with ⟨row, hrow, rfl⟩
  simp [resizeBilinear_rows heat W H row hrow]

theorem mem_zipWith {α β γ : Type} (f : α → β → γ) :
    ∀ (l1 : List α) (l2 : List β) (c : γ), c ∈ List.zipWith f l1 l2 →
      ∃ a ∈ l1, ∃ b ∈ l2, c = f a b := by
  intro l1
  induction l1 with
  | nil => intro l2 c h; simp at h
  | cons a t ih =>
    intro l2 c h
    cases l2 with
    | nil => simp at h
    | cons b u =>
      rcases List.mem_cons.mp h with h | h
      · exact ⟨a, List.mem_cons_self a t, b, List.mem_cons_self b u, h⟩
      · rcases ih u c h with ⟨a', ha, b', hb, rfl⟩
        exact ⟨a', List.mem_cons_of_mem a ha, b', List.mem_cons_of_mem b hb, rfl⟩

theorem blendChan_eq_spec (h o : ℚ) : blendChan h o = specBlendChan h o := by
  have e : h * (3 / 10) + o * (7 / 10) = 3 / 10 * h + 7 / 10 * o := by ring
  unfold blendChan specBlendChan clip
  rw [e]

theorem blendPx_eq_spec : blendPx = fun hc oc =>
    ((specBlendChan hc.1 oc.1, specBlendChan hc.2.1 oc.2.1,
      specBlendChan hc.2.2 oc.2.2) : Px) := by
  funext hc oc
  simp [blendPx, blendChan_eq_spec]

/-- **C9** (confirmed). Rendering resizes the saliency map to the original
`(W, H)` by bilinear interpolation and clips it to `[0, 1]` only after the
resize; the colorized heatmap always has exactly `H` rows of `W` pixels
(for any saliency input, including a 1×1 map), the overlay has exactly
`H` rows of `W` pixels whenever the original image does, and the overlay
is pixel-for-pixel `0.3·heatmap + 0.7·original`, clipped to `[0, 255]`
and truncated to 8-bit. -/
theorem render_contract (colormap : Nat → Px) (heat : Image)
    (orig : List (List Px)) (W H : Nat)
    (hrows : orig.length = H) (hcols : ∀ r ∈ orig, r.length = W) :
    ((renderHeatmap colormap heat orig W H).1.length = H ∧
      ∀ r ∈ (renderHeatmap colormap heat orig W H).1, r.length = W) ∧
    ((renderHeatmap colormap heat orig W H).2.length = H ∧
      ∀ r ∈ (renderHeatmap colormap heat orig W H).2, r.length = W) ∧
    (∀ v ∈ vals (resizedSaliency heat W H), 0 ≤ v ∧ v ≤ 1) ∧
    (renderHeatmap colormap heat orig W H).2 =
      List.zipWith (List.zipWith (fun hc oc =>
          (specBlendChan hc.1 oc.1, specBlendChan hc.2.1 oc.2.1,
            specBlendChan hc.2.2 oc.2.2)))
        (renderHeatmap colormap heat orig W H).1 orig := by
  have hc1len : (renderHeatmap colormap heat orig W H).1.length = H := by
    simp [renderHeatmap, colorizeHeatmap, resizedSaliency_length]
  have hc1rows : ∀ r ∈ (renderHeatmap colormap heat orig W H).1, r.length = W := by
    intro r hr
    simp only [renderHeatmap, colorizeHeatmap, List.mem_map] at hr
    rcases hr with ⟨row, hrow, rfl⟩
    simp [resizedSaliency_rows heat W H row hrow]
  refine ⟨⟨hc1len, hc1rows⟩, ⟨?_, ?_⟩, ?_, ?_⟩
  · simp only [renderHeatmap]
    simp [List.length_zipWith, hc1len, hrows,
      show (renderHeatmap colormap heat orig W H).1.length = H from hc1len,
      colorizeHeatmap, resizedSaliency_length]
  · intro r hr
    have hr' := hr
    simp only [renderHeatmap] at hr'
    rcases mem_zipWith _ _ _ _ hr' with ⟨a, ha, b, hb, rfl⟩
    have haw : a.length = W := hc1rows a (by simpa [renderHeatmap] using ha)
    have hbw : b.length = W := hcols b hb
    simp [List.length_zipWith, haw, hbw]
  · intro v hv
    rw [resizedSaliency, vals_imap] at hv
    rcases List.mem_map.mp hv with ⟨u, _, rfl⟩
    exact clip01_bounds u
  · simp only [renderHeatmap]
    rw [← blendPx_eq_spec]

/-- Witness for C9: a degenerate 1×1 saliency map rendered against a
1×2 original yields a heatmap and an overlay of exactly one row of two
pixels. -/
theorem render_contract_witness :
    (renderHeatmap (fun n => ((n : ℚ), 0, 0)) [[1 / 2]]
        [[(1, 2, 3), (4, 5, 6)]] 2 1).1.length = 1 ∧
    (renderHeatmap (fun n => ((n : ℚ), 0, 0)) [[1 / 2]]
        [[(1, 2, 3), (4, 5, 6)]] 2 1).2.length = 1 :=
  ⟨((render_contract (fun n => ((n : ℚ), 0, 0)) [[1 / 2]]
      [[(1, 2, 3), (4, 5, 6)]] 2 1 (by decide) (by decide)).1).1,
   ((render_contract (fun n => ((n : ℚ), 0, 0)) [[1 / 2]]
      [[(1, 2, 3), (4, 5, 6)]] 2 1 (by decide) (by decide)).2.1).1⟩

/-- **C10** (confirmed). Each `generate_heatmap` call builds a fresh CAM
object whose constructor registers one forward and one backward hook on
the shared model's target layer, and no hook is ever removed: after `n`
predictions the layer carries exactly the `n` accumulated forward and `n`
backward hooks, and a subsequent forward pass invokes all `n` previously
registered forward hooks. -/
theorem hooks_accumulate (n : Nat) :
    (hooksAfter n).fwdHooks = List.range n ∧
    (hooksAfter n).bwdHooks = List.range n ∧
    forwardPassInvokes (hooksAfter n) = List.range n := by
  induction n with
  | zero => exact ⟨rfl, rfl, rfl⟩
  | succ k ih =>
    have hf := ih.1
    have hb := ih.2.1
    refine ⟨?_, ?_, ?_⟩ <;>
      simp [hooksAfter, generateHeatmapHookEffect, registerHooksOnce,
        forwardPassInvokes, hf, hb, List.range_succ]

end ChestXray
